import Mathlib

/-!
Shallow embedding of `src/mscoree_safe/src/metahost.rs` (crate `mscoree-rs`).

The repository is a thin safe wrapper over the native CLR hosting COM API.
All native calls (`CLRCreateInstance`, `ICLRMetaHost::GetRuntime`,
`ICLRRuntimeInfo::GetVersionString` / `IsLoaded` / `IsLoadable` / `IsStarted` /
`GetInterface`, the `IEnumUnknown`-based enumerations) are external
collaborators; they are modelled by an explicit environment record
`NativeEnv` describing what each native call would report, and every wrapper
method becomes a pure function of the wrapper's state and the environment.
Raw COM pointers are modelled as `Nat` (0 = null); `HRESULT` and `BOOL` are
`Int` (the native types are 32-bit signed integers, and the code only ever
compares them with `== 0` / `== S_OK` / `< 0`, so no overflow arises).
Heap identity of the `Rc`-allocated `RuntimeInfoImpl` objects (needed for the
identity-preserving-cache property) is modelled by tagging each allocation
with a fresh `Nat` id drawn from a counter in the catalog state; a
`Weak<dyn RuntimeInfo>` handle is that id.  Each method additionally returns
the number of native accessor invocations it performed, so that
"without querying the native object" is expressible; `panic!` is modelled by
an `Option` result (`none` = abort).
-/

/-- The `RuntimeVersion` enum generated by the `ENUM_CONSTANTS!` macro:
closed variants `V2`, `V3`, `V4` plus the fallback `Unknown(String)`. -/
inductive RuntimeVersion where
  | V2 : RuntimeVersion
  | V3 : RuntimeVersion
  | V4 : RuntimeVersion
  | Unknown : String → RuntimeVersion
deriving DecidableEq, Repr

/-- `impl ToString for RuntimeVersion` from the macro expansion:
each known variant maps to its literal, `Unknown(v)` clones the string. -/
def RuntimeVersion.to_string : RuntimeVersion → String
  | .V2 => "v2.0.50727"
  | .V3 => "v3.0"
  | .V4 => "v4.0.30319"
  | .Unknown v => v

/-- `impl From<String> for RuntimeVersion` from the macro expansion:
match the incoming string against the three literals in declaration order,
falling through to `Unknown(in_str)`. -/
def RuntimeVersion.fromString (in_str : String) : RuntimeVersion :=
  if in_str = "v2.0.50727" then .V2
  else if in_str = "v3.0" then .V3
  else if in_str = "v4.0.30319" then .V4
  else .Unknown in_str

/-- The closed `SupportedInterfaces` enum (kinds of sub-interface a runtime
handle can be asked for). -/
inductive SupportedInterfaces where
  | CorRuntimeHost : SupportedInterfaces
  | CLRRuntimeHost : SupportedInterfaces
  | TypeNameFactory : SupportedInterfaces
deriving DecidableEq, Repr

/-- `IntfCtr`: opaque container pairing the output slot of the native
`GetInterface` call with the requested interface kind tag. -/
structure IntfCtr where
  inner : Nat
  intf_ty : SupportedInterfaces
deriving DecidableEq, Repr

/-- One `IEnumUnknown::Next`-step of an enumeration, as the native side would
answer it: the `HRESULT` of `Next` (loop continues only on `S_OK = 0`), the
`HRESULT` of the subsequent `QueryInterface(IID_ICLRRuntimeInfo, ..)`, and
the `ICLRRuntimeInfo` pointer that query writes (0 = null). -/
structure EnumStep where
  next_hr : Int
  qi_hr : Int
  ri_ptr : Nat
deriving DecidableEq, Repr

/-- The native environment: what each foreign call would report when invoked.
`getVersionString` folds the two-phase (size, fill) `GetVersionString`
convention into one answer `(hr of the filling call, decoded UTF-16 string)`.
The boolean queries report `(hr, written BOOL)`; `getInterface` reports
`(hr, value written into the output slot)`. -/
structure NativeEnv where
  createInstance : Int × Nat
  getRuntime : Nat → String → Int × Nat
  enumInstalled : Nat → Int × Nat
  installedItems : List EnumStep
  enumLoaded : Nat → Int × Nat
  loadedItems : List EnumStep
  getVersionString : Nat → Int × String
  isLoaded : Nat → Int × Int
  isLoadable : Nat → Int × Int
  isStarted : Nat → Int × Int
  getInterface : Nat → SupportedInterfaces → Int × Nat

/-- State of a `RuntimeInfoImpl`: the cached version (the `Unknown` range
doubles as "not yet resolved"), the raw `ICLRRuntimeInfo` pointer, and the
three memoized boolean fields. -/
structure RuntimeInfoImpl where
  version : RuntimeVersion
  inner : Nat
  loaded : Option Bool
  loadable : Option Bool
  started : Option Bool
deriving DecidableEq, Repr

/-- `RuntimeInfo::version(&mut self)`: returns the cached field when it is one
of the known variants, otherwise performs the two-phase `GetVersionString`
query, overwriting the field only when the filling call returns `S_OK`.
Result: (returned version, updated self, number of native accessor queries). -/
def RuntimeInfoImpl.versionCall (self : RuntimeInfoImpl) (env : NativeEnv) :
    RuntimeVersion × RuntimeInfoImpl × Nat :=
  match self.version with
  | .V2 => (self.version, self, 0)
  | .V3 => (self.version, self, 0)
  | .V4 => (self.version, self, 0)
  | .Unknown _ =>
    let r := env.getVersionString self.inner
    if r.1 = 0 then
      let v := RuntimeVersion.fromString r.2
      (v, { self with version := v }, 1)
    else
      (self.version, self, 1)

/-- The associated function `RuntimeInfoImpl::version(in_ptr)` used by
`loaded_runtimes`: same two-phase query but on a bare pointer, yielding
`Unknown("")` when the filling call does not return `S_OK`. -/
def RuntimeInfoImpl.versionOfPtr (env : NativeEnv) (in_ptr : Nat) : RuntimeVersion :=
  let r := env.getVersionString in_ptr
  if r.1 = 0 then RuntimeVersion.fromString r.2 else .Unknown ""

/-- `RuntimeInfo::loaded(&mut self)`: memoized `IsLoaded(GetCurrentProcess())`
query; the result is `vb < 0` on the written `BOOL`, the `HRESULT` is
discarded. -/
def RuntimeInfoImpl.loadedCall (self : RuntimeInfoImpl) (env : NativeEnv) :
    Bool × RuntimeInfoImpl × Nat :=
  match self.loaded with
  | some b => (b, self, 0)
  | none =>
    let vb := (env.isLoaded self.inner).2
    (decide (vb < 0), { self with loaded := some (decide (vb < 0)) }, 1)

/-- `RuntimeInfo::loadable(&mut self)`: memoized `IsLoadable` query, again
`vb < 0` with the `HRESULT` discarded. -/
def RuntimeInfoImpl.loadableCall (self : RuntimeInfoImpl) (env : NativeEnv) :
    Bool × RuntimeInfoImpl × Nat :=
  match self.loadable with
  | some b => (b, self, 0)
  | none =>
    let vb := (env.isLoadable self.inner).2
    (decide (vb < 0), { self with loadable := some (decide (vb < 0)) }, 1)

/-- `RuntimeInfo::started(&mut self)`: memoized `IsStarted` query, again
`vb < 0` with the `HRESULT` discarded. -/
def RuntimeInfoImpl.startedCall (self : RuntimeInfoImpl) (env : NativeEnv) :
    Bool × RuntimeInfoImpl × Nat :=
  match self.started with
  | some b => (b, self, 0)
  | none =>
    let vb := (env.isStarted self.inner).2
    (decide (vb < 0), { self with started := some (decide (vb < 0)) }, 1)

/-- `RuntimeInfo::load_library(&mut self, dll_name)`: an empty body. -/
def RuntimeInfoImpl.load_library (self : RuntimeInfoImpl) (_dll_name : String) :
    Unit × RuntimeInfoImpl × Nat :=
  ((), self, 0)

/-- `RuntimeInfo::interface(&mut self, supported_intf)`: allocates a null
output slot, calls `GetInterface` with the kind's (clsid, iid) pair ignoring
its `HRESULT`, and wraps the slot with the kind tag. -/
def RuntimeInfoImpl.interfaceCall (self : RuntimeInfoImpl) (env : NativeEnv)
    (supported_intf : SupportedInterfaces) : IntfCtr × RuntimeInfoImpl × Nat :=
  let r := env.getInterface self.inner supported_intf
  ({ inner := r.2, intf_ty := supported_intf }, self, 1)

/-- Lookup in an association list, modelling `HashMap::get` /
`contains_key` (used both for the version-keyed maps and the `Nat`-keyed
heap of allocations). -/
def lookupA {κ α : Type} [DecidableEq κ] : List (κ × α) → κ → Option α
  | [], _ => none
  | (k, v) :: rest, k' => if k' = k then some v else lookupA rest k'

/-- Insert-or-replace in an association list, modelling `HashMap::insert`
(replaces the value when the key is present, keeps each key at most once). -/
def insertA {κ α : Type} [DecidableEq κ] (k : κ) (v : α) :
    List (κ × α) → List (κ × α)
  | [] => [(k, v)]
  | (k', v') :: rest => if k = k' then (k, v) :: rest else (k', v') :: insertA k v rest

/-- State of the `MetaHostImpl` catalog.  `runtimes` maps a version to the
heap id of the `Rc`-owned `RuntimeInfoImpl` (strong ownership); `store` is
the heap, mapping ids to object states; `nextId` feeds fresh allocations.
A `Weak<dyn RuntimeInfo>` handed to a caller is the heap id. -/
structure MetaHostImpl where
  inner : Nat
  nextId : Nat
  store : List (Nat × RuntimeInfoImpl)
  runtimes : List (RuntimeVersion × Nat)
  loaded_runtimes : List (RuntimeVersion × Bool)
deriving Repr

/-- `MetaHostImpl::new()`: `CLRCreateInstance`, then either a catalog with
empty caches (on `hr == 0` and a non-null pointer) or `panic!` (`none`). -/
def MetaHostImpl.new (env : NativeEnv) : Option MetaHostImpl :=
  let r := env.createInstance
  if r.1 = 0 ∧ r.2 ≠ 0 then
    some { inner := r.2, nextId := 0, store := [], runtimes := [], loaded_runtimes := [] }
  else
    none

/-- `MetaHost::runtime(&mut self, version)`: cached lookup first; on a miss,
`GetRuntime` is called, and on `hr == 0` with a non-null pointer the wrapped
object is allocated, stored strongly under `version`, and its weak id
returned; any other outcome is `panic!` (`none`).  The `Bool` records
whether the native factory was queried. -/
def MetaHostImpl.runtimeCall (self : MetaHostImpl) (env : NativeEnv)
    (version : RuntimeVersion) : Option (Nat × MetaHostImpl × Bool) :=
  match lookupA self.runtimes version with
  | some id => some (id, self, false)
  | none =>
    let r := env.getRuntime self.inner version.to_string
    if r.1 = 0 ∧ r.2 ≠ 0 then
      let ri : RuntimeInfoImpl :=
        { version := version, inner := r.2, loaded := none, loadable := none, started := none }
      some (self.nextId,
        { self with
            nextId := self.nextId + 1,
            store := (self.nextId, ri) :: self.store,
            runtimes := insertA version self.nextId self.runtimes },
        true)
    else
      none

/-- The `while next_hr == S_OK` loop of `MetaHost::runtimes`: walk the
enumerator's answers in order, stopping at the first `Next` result other
than `S_OK`; an item whose `QueryInterface` fails (or yields null) is
skipped; each kept item is wrapped fresh and resolved via the
`version(&mut self)` method. -/
def collectInstalled (env : NativeEnv) : List EnumStep → List (RuntimeVersion × RuntimeInfoImpl)
  | [] => []
  | step :: rest =>
    if step.next_hr = 0 then
      (if step.qi_hr = 0 ∧ step.ri_ptr ≠ 0 then
        let ri : RuntimeInfoImpl :=
          { version := .Unknown "", inner := step.ri_ptr,
            loaded := none, loadable := none, started := none }
        let r := ri.versionCall env
        [(r.1, r.2.1)]
      else []) ++ collectInstalled env rest
    else []

/-- `Rc::new` for each entry of a freshly collected map: allocate a distinct
heap id (counting up from `c`) per entry, yielding the version-to-id map and
the id-to-object heap extension. -/
def allocEntries (c : Nat) : List (RuntimeVersion × RuntimeInfoImpl) →
    List (RuntimeVersion × Nat) × List (Nat × RuntimeInfoImpl)
  | [] => ([], [])
  | (v, ri) :: rest =>
    let t := allocEntries (c + 1) rest
    ((v, c) :: t.1, (c, ri) :: t.2)

/-- `MetaHost::runtimes(&mut self)`: when the owned map is empty, run
`EnumerateInstalledRuntimes` and (on success with a non-null enumerator)
collect the loop's items into a fresh map, allocating a heap id for each
entry, and replace the owned map; then return the weak (id) view of the
owned map.  The `Bool` records whether the native enumerator was invoked. -/
def MetaHostImpl.runtimesCall (self : MetaHostImpl) (env : NativeEnv) :
    List (RuntimeVersion × Nat) × MetaHostImpl × Bool :=
  if self.runtimes.isEmpty then
    let r := env.enumInstalled self.inner
    if r.1 = 0 ∧ r.2 ≠ 0 then
      let hmri := (collectInstalled env env.installedItems).foldl
        (fun m vr => insertA vr.1 vr.2 m) []
      let a := allocEntries self.nextId hmri
      let self1 : MetaHostImpl :=
        { self with
            nextId := self.nextId + hmri.length,
            store := a.2 ++ self.store,
            runtimes := a.1 }
      (self1.runtimes, self1, true)
    else
      (self.runtimes, self, true)
  else
    (self.runtimes, self, false)

/-- The enumeration loop of `MetaHost::loaded_runtimes`: same `Next` protocol,
but each kept item is resolved with the associated function
`RuntimeInfoImpl::version(ptr)` and only the version is retained. -/
def collectLoaded (env : NativeEnv) : List EnumStep → List RuntimeVersion
  | [] => []
  | step :: rest =>
    if step.next_hr = 0 then
      (if step.qi_hr = 0 ∧ step.ri_ptr ≠ 0 then
        [RuntimeInfoImpl.versionOfPtr env step.ri_ptr]
      else []) ++ collectLoaded env rest
    else []

/-- `MetaHost::loaded_runtimes(&mut self)`: when the cached map is empty, run
`EnumerateLoadedRuntimes(GetCurrentProcess())`; on success, mark every
enumerated version `true`, then walk `self.runtimes()` and mark every key
not already present `false`, and cache the result; finally return a clone
of the cached map.  The `Bool` records whether the native enumerator was
invoked. -/
def MetaHostImpl.loadedRuntimesCall (self : MetaHostImpl) (env : NativeEnv) :
    List (RuntimeVersion × Bool) × MetaHostImpl × Bool :=
  if self.loaded_runtimes.isEmpty then
    let r := env.enumLoaded self.inner
    if r.1 = 0 ∧ r.2 ≠ 0 then
      let hmri0 := (collectLoaded env env.loadedItems).foldl
        (fun m v => insertA v true m) []
      let rw := self.runtimesCall env
      let hmri := rw.1.foldl
        (fun m kv => if (lookupA m kv.1).isSome then m else insertA kv.1 false m) hmri0
      ((hmri, { rw.2.1 with loaded_runtimes := hmri }, true) :
        List (RuntimeVersion × Bool) × MetaHostImpl × Bool)
    else
      (self.loaded_runtimes, self, true)
  else
    (self.loaded_runtimes, self, false)

/-! Concrete native environments and wrapper states, used to evaluate the
model on closed inputs. -/

/-- A benign environment: every native call succeeds, `GetVersionString`
reports `"v4.0.30319"`, `IsLoaded` writes `1`, `IsLoadable` writes `-1`,
`IsStarted` writes `0`, and all object pointers are non-null. -/
def baseEnv : NativeEnv where
  createInstance := (0, 1)
  getRuntime := fun _ _ => (0, 1)
  enumInstalled := fun _ => (0, 1)
  installedItems := []
  enumLoaded := fun _ => (0, 1)
  loadedItems := []
  getVersionString := fun _ => (0, "v4.0.30319")
  isLoaded := fun _ => (0, 1)
  isLoadable := fun _ => (0, -1)
  isStarted := fun _ => (0, 0)
  getInterface := fun _ _ => (0, 7)

/-- Environment in which `CLRCreateInstance` fails with `hr = 1`. -/
def failEnv : NativeEnv := { baseEnv with createInstance := (1, 0) }

/-- Environment in which `EnumerateInstalledRuntimes` fails with `hr = 1`. -/
def envEnumFail : NativeEnv := { baseEnv with enumInstalled := fun _ => (1, 0) }

/-- Environment in which the installed-runtime enumeration yields one item
but every `GetVersionString` filling call fails with `hr = 1`. -/
def envVerFail : NativeEnv :=
  { baseEnv with
      installedItems := [⟨0, 0, 2⟩],
      getVersionString := fun _ => (1, "") }

/-- Environment whose `GetVersionString` reports the unrecognized
string `"v5.0"`. -/
def envV5 : NativeEnv := { baseEnv with getVersionString := fun _ => (0, "v5.0") }

/-- Environment whose `GetVersionString` reports `"v2.0.50727"`. -/
def envV2str : NativeEnv :=
  { baseEnv with getVersionString := fun _ => (0, "v2.0.50727") }

/-- Environment where the loaded-runtime enumeration yields one item whose
version resolves to the unrecognized `"v5.0"`, while the installed-runtime
enumeration yields nothing. -/
def envLoadedV5 : NativeEnv :=
  { baseEnv with
      loadedItems := [⟨0, 0, 2⟩],
      getVersionString := fun _ => (0, "v5.0") }

/-- Environment where the installed-runtime enumeration yields one item
(resolving to `"v4.0.30319"` via `baseEnv`'s version query). -/
def envOneInstalled : NativeEnv := { baseEnv with installedItems := [⟨0, 0, 2⟩] }

/-- A runtime-info state with resolved version `V4` and no memoized flags. -/
def ri0 : RuntimeInfoImpl :=
  { version := .V4, inner := 1, loaded := none, loadable := none, started := none }

/-- A freshly wrapped runtime-info state: unresolved version, no flags. -/
def riU : RuntimeInfoImpl :=
  { version := .Unknown "", inner := 1, loaded := none, loadable := none, started := none }

/-- A freshly constructed catalog: both caches empty. -/
def mh0 : MetaHostImpl :=
  { inner := 1, nextId := 0, store := [], runtimes := [], loaded_runtimes := [] }

/-! Association-list lemmas (behaviour of the `HashMap` model). -/

theorem lookupA_insertA {κ α : Type} [DecidableEq κ] (k k' : κ) (v : α)
    (m : List (κ × α)) :
    lookupA (insertA k v m) k' = if k' = k then some v else lookupA m k' := by
  induction m with
  | nil => simp [insertA, lookupA]
  | cons p rest ih =>
    obtain ⟨pk, pv⟩ := p
    by_cases hk : k = pk
    · subst hk
      simp only [insertA, if_pos rfl, lookupA]
      by_cases h : k' = k
      · simp [h, lookupA]
      · simp [h, lookupA]
    · by_cases hk' : k' = pk
      · subst hk'
        simp [insertA, hk, lookupA, Ne.symm hk]
      · simp [insertA, hk, lookupA, hk', ih]

theorem lookupA_isSome_iff_mem_keys {κ α : Type} [DecidableEq κ] (m : List (κ × α))
    (k : κ) : (lookupA m k).isSome ↔ k ∈ m.map Prod.fst := by
  induction m with
  | nil => simp [lookupA]
  | cons p rest ih =>
    obtain ⟨pk, pv⟩ := p
    by_cases hk : k = pk
    · subst hk
      simp [lookupA]
    · simp [lookupA, hk, ih]

theorem lookupA_foldl_insert_true {κ : Type} [DecidableEq κ] (l : List κ)
    (m0 : List (κ × Bool)) (k : κ) :
    lookupA (l.foldl (fun m v => insertA v true m) m0) k =
      if k ∈ l then some true else lookupA m0 k := by
  induction l generalizing m0 with
  | nil => simp
  | cons a rest ih =>
    simp only [List.foldl_cons, ih, lookupA_insertA, List.mem_cons]
    by_cases hr : k ∈ rest
    · simp [hr]
    · by_cases ha : k = a
      · simp [hr, ha]
      · simp [hr, ha]

theorem lookupA_foldl_addFalse {κ α : Type} [DecidableEq κ] (l : List (κ × α))
    (m0 : List (κ × Bool)) (k : κ) :
    lookupA (l.foldl
        (fun m kv => if (lookupA m kv.1).isSome then m else insertA kv.1 false m) m0) k =
      match lookupA m0 k with
      | some b => some b
      | none => if k ∈ l.map Prod.fst then some false else none := by
  induction l generalizing m0 with
  | nil => cases h : lookupA m0 k <;> simp [h]
  | cons p rest ih =>
    obtain ⟨pk, pv⟩ := p
    simp only [List.foldl_cons]
    by_cases hp : (lookupA m0 pk).isSome
    · rw [if_pos hp, ih]
      cases h : lookupA m0 k with
      | some b => simp
      | none =>
        have hk : k ≠ pk := by
          intro he
          rw [← he, h] at hp
          simp at hp
        by_cases hm : k ∈ List.map Prod.fst rest
        · simp [hm]
        · simp [hm, hk]
    · rw [if_neg hp, ih, lookupA_insertA pk k false m0]
      by_cases hk : k = pk
      · subst hk
        rw [if_pos rfl]
        cases h : lookupA m0 k with
        | some b => exact absurd (by rw [h]; rfl) hp
        | none => simp
      · rw [if_neg hk]
        cases h : lookupA m0 k with
        | some b => simp
        | none =>
          by_cases hm : k ∈ List.map Prod.fst rest
          · simp [hm]
          · simp [hm, hk]

/-! Claim theorems. -/

/-- C1: for each of the three known `RuntimeVersion` variants, `to_string`
and `From<String>` are exact inverses: `V2 ↔ "v2.0.50727"`, `V3 ↔ "v3.0"`,
`V4 ↔ "v4.0.30319"`. -/
theorem runtimeVersion_known_roundtrip :
    (RuntimeVersion.V2.to_string = "v2.0.50727"
      ∧ RuntimeVersion.fromString "v2.0.50727" = RuntimeVersion.V2)
    ∧ (RuntimeVersion.V3.to_string = "v3.0"
      ∧ RuntimeVersion.fromString "v3.0" = RuntimeVersion.V3)
    ∧ (RuntimeVersion.V4.to_string = "v4.0.30319"
      ∧ RuntimeVersion.fromString "v4.0.30319" = RuntimeVersion.V4) := by
  refine ⟨⟨rfl, ?_⟩, ⟨rfl, ?_⟩, ⟨rfl, ?_⟩⟩ <;> decide

/-- C2: every string other than the three known literals converts to
`Unknown` preserving the string verbatim, and `to_string` on that value
gives the string back. -/
theorem runtimeVersion_unknown_verbatim (s : String)
    (h2 : s ≠ "v2.0.50727") (h3 : s ≠ "v3.0") (h4 : s ≠ "v4.0.30319") :
    RuntimeVersion.fromString s = RuntimeVersion.Unknown s
      ∧ (RuntimeVersion.Unknown s).to_string = s := by
  refine ⟨?_, rfl⟩
  simp [RuntimeVersion.fromString, h2, h3, h4]

/-- Witness for C2 at the spec's own example string `"v5.0"`. -/
theorem runtimeVersion_unknown_verbatim_witness :
    RuntimeVersion.fromString "v5.0" = RuntimeVersion.Unknown "v5.0"
      ∧ (RuntimeVersion.Unknown "v5.0").to_string = "v5.0" :=
  runtimeVersion_unknown_verbatim "v5.0" (by decide) (by decide) (by decide)

/-- C5: on a not-yet-memoized handle, each of `loaded` / `loadable` /
`started` returns `true` exactly when the `BOOL` the native query writes is
negative-valued; in particular the positive nonzero value `1` yields
`false`. -/
theorem bool_queries_negative (self : RuntimeInfoImpl) (env : NativeEnv)
    (hl : self.loaded = none) (hb : self.loadable = none)
    (hs : self.started = none) :
    ((self.loadedCall env).1 = true ↔ (env.isLoaded self.inner).2 < 0)
    ∧ ((self.loadableCall env).1 = true ↔ (env.isLoadable self.inner).2 < 0)
    ∧ ((self.startedCall env).1 = true ↔ (env.isStarted self.inner).2 < 0)
    ∧ ((env.isLoaded self.inner).2 = 1 → (self.loadedCall env).1 = false)
    ∧ ((env.isLoadable self.inner).2 = 1 → (self.loadableCall env).1 = false)
    ∧ ((env.isStarted self.inner).2 = 1 → (self.startedCall env).1 = false) := by
  refine ⟨?_, ?_, ?_, fun h1 => ?_, fun h1 => ?_, fun h1 => ?_⟩
  · simp [RuntimeInfoImpl.loadedCall, hl]
  · simp [RuntimeInfoImpl.loadableCall, hb]
  · simp [RuntimeInfoImpl.startedCall, hs]
  · simp [RuntimeInfoImpl.loadedCall, hl, h1]
  · simp [RuntimeInfoImpl.loadableCall, hb, h1]
  · simp [RuntimeInfoImpl.startedCall, hs, h1]

/-- Witness for C5: `baseEnv` writes `1` for `IsLoaded` (positive nonzero →
`false`), `-1` for `IsLoadable` (negative → `true`), `0` for `IsStarted`. -/
theorem bool_queries_negative_witness :
    (((ri0.loadedCall baseEnv).1 = true ↔ (baseEnv.isLoaded ri0.inner).2 < 0)
    ∧ ((ri0.loadableCall baseEnv).1 = true ↔ (baseEnv.isLoadable ri0.inner).2 < 0)
    ∧ ((ri0.startedCall baseEnv).1 = true ↔ (baseEnv.isStarted ri0.inner).2 < 0)
    ∧ ((baseEnv.isLoaded ri0.inner).2 = 1 → (ri0.loadedCall baseEnv).1 = false)
    ∧ ((baseEnv.isLoadable ri0.inner).2 = 1 → (ri0.loadableCall baseEnv).1 = false)
    ∧ ((baseEnv.isStarted ri0.inner).2 = 1 → (ri0.startedCall baseEnv).1 = false))
    ∧ (ri0.loadedCall baseEnv).1 = false ∧ (ri0.loadableCall baseEnv).1 = true
    ∧ (ri0.startedCall baseEnv).1 = false :=
  ⟨bool_queries_negative ri0 baseEnv rfl rfl rfl, by decide, by decide, by decide⟩

/-- C8: `MetaHostImpl::new` yields a catalog with empty caches exactly when
`CLRCreateInstance` reports `hr = 0` and writes a non-null pointer, and
panics (`none`) otherwise, never yielding a partial instance. -/
theorem new_construction (env : NativeEnv) :
    (env.createInstance.1 = 0 ∧ env.createInstance.2 ≠ 0 →
      MetaHostImpl.new env = some
        { inner := env.createInstance.2, nextId := 0,
          store := [], runtimes := [], loaded_runtimes := [] })
    ∧ (¬(env.createInstance.1 = 0 ∧ env.createInstance.2 ≠ 0) →
      MetaHostImpl.new env = none) := by
  constructor <;> intro h <;> simp [MetaHostImpl.new, h]

/-- Witness for C8: `baseEnv` succeeds with pointer `1`; `failEnv` reports
`hr = 1` and construction aborts. -/
theorem new_construction_witness :
    MetaHostImpl.new baseEnv = some
      { inner := baseEnv.createInstance.2, nextId := 0,
        store := [], runtimes := [], loaded_runtimes := [] }
    ∧ MetaHostImpl.new failEnv = none :=
  ⟨(new_construction baseEnv).1 (by decide),
    (new_construction failEnv).2 (by decide)⟩

/-- C9: `load_library` is a no-op: it performs no native call, leaves the
handle state unchanged, and returns `()`. -/
theorem load_library_noop (self : RuntimeInfoImpl) (dll_name : String) :
    self.load_library dll_name = ((), self, 0) := rfl

/-- C10: `interface(kind)` always returns an `IntfCtr` tagged with the
requested kind whose payload is what the native `GetInterface` call wrote
into the output slot, with the status code discarded (the result has the
same shape whatever `hr` the native call reports) and the handle state
unchanged. -/
theorem interface_shape (self : RuntimeInfoImpl) (env : NativeEnv)
    (supported_intf : SupportedInterfaces) :
    (self.interfaceCall env supported_intf).1.intf_ty = supported_intf
    ∧ (self.interfaceCall env supported_intf).1.inner =
        (env.getInterface self.inner supported_intf).2
    ∧ (self.interfaceCall env supported_intf).2.1 = self :=
  ⟨rfl, rfl, rfl⟩

/-- C3: `runtime(v)` on a catalog already holding `v` returns the stored
weak handle with no native call and an unchanged catalog (so two lookups of
the same version return the same underlying object); on a miss it queries
`GetRuntime`, and on success stores the wrapped runtime strongly under `v`
and returns a weak handle to that stored object (a repeated lookup then
returns the same id without querying); on a native failure code it panics
(`none`). -/
theorem runtime_lookup_behavior (self : MetaHostImpl) (env env' : NativeEnv)
    (v : RuntimeVersion) :
    (∀ id, lookupA self.runtimes v = some id →
      self.runtimeCall env v = some (id, self, false))
    ∧ (lookupA self.runtimes v = none →
        (((env.getRuntime self.inner v.to_string).1 = 0
            ∧ (env.getRuntime self.inner v.to_string).2 ≠ 0) →
          ∃ st : MetaHostImpl,
            self.runtimeCall env v = some (self.nextId, st, true)
            ∧ lookupA st.runtimes v = some self.nextId
            ∧ lookupA st.store self.nextId = some
                { version := v, inner := (env.getRuntime self.inner v.to_string).2,
                  loaded := none, loadable := none, started := none }
            ∧ st.runtimeCall env' v = some (self.nextId, st, false))
        ∧ ((env.getRuntime self.inner v.to_string).1 ≠ 0 →
          self.runtimeCall env v = none)) := by
  refine ⟨fun id h => ?_, fun h => ⟨fun hsucc => ?_, fun hfail => ?_⟩⟩
  · simp [MetaHostImpl.runtimeCall, h]
  · refine ⟨{ self with
        nextId := self.nextId + 1,
        store := (self.nextId,
          ({ version := v, inner := (env.getRuntime self.inner v.to_string).2,
             loaded := none, loadable := none,
             started := none } : RuntimeInfoImpl)) :: self.store,
        runtimes := insertA v self.nextId self.runtimes }, ?_, ?_, ?_, ?_⟩
    · simp [MetaHostImpl.runtimeCall, h, hsucc]
    · show lookupA (insertA v self.nextId self.runtimes) v = some self.nextId
      rw [lookupA_insertA]
      simp
    · show lookupA ((self.nextId, _) :: self.store) self.nextId = _
      simp [lookupA]
    · simp [MetaHostImpl.runtimeCall, lookupA_insertA]
  · have hc : ¬((env.getRuntime self.inner v.to_string).1 = 0
        ∧ (env.getRuntime self.inner v.to_string).2 ≠ 0) := fun hc => hfail hc.1
    simp [MetaHostImpl.runtimeCall, h, hc]

/-- Witness for C3 on a fresh catalog and `V4` under `baseEnv`: the stored
object and the identity-preserving second lookup, concretely. -/
theorem runtime_lookup_behavior_witness :
    ∃ st : MetaHostImpl,
      mh0.runtimeCall baseEnv RuntimeVersion.V4 = some (mh0.nextId, st, true)
      ∧ lookupA st.runtimes RuntimeVersion.V4 = some mh0.nextId
      ∧ lookupA st.store mh0.nextId = some
          { version := RuntimeVersion.V4,
            inner := (baseEnv.getRuntime mh0.inner RuntimeVersion.V4.to_string).2,
            loaded := none, loadable := none, started := none }
      ∧ st.runtimeCall baseEnv RuntimeVersion.V4 = some (mh0.nextId, st, false) :=
  ((runtime_lookup_behavior mh0 baseEnv baseEnv RuntimeVersion.V4).2 rfl).1
    ⟨rfl, by decide⟩

/-- Counterexample to C4 as stated: on a handle whose version resolved to
`Unknown("v5.0")` on the first call, a second `version()` call queries the
native object again (one more native query) and returns whatever it now
reports (`V2` here), not the cached value — `version` is not
unconditionally memoized. -/
theorem version_memo_counterexample :
    (riU.versionCall envV5).1 = RuntimeVersion.Unknown "v5.0"
    ∧ ((riU.versionCall envV5).2.1.versionCall envV2str).2.2 = 1
    ∧ ((riU.versionCall envV5).2.1.versionCall envV2str).1 = RuntimeVersion.V2 := by
  refine ⟨by decide, by decide, by decide⟩

/-- C4 amended: `loaded` / `loadable` / `started` are memoized after the
first call (a second call under any environment returns the same value with
no native query); `version` is memoized only when the first call's result is
one of the known variants `V2`/`V3`/`V4` — a result in the `Unknown` range
is re-queried on every call. -/
theorem memoization_amended (self : RuntimeInfoImpl) (env env2 : NativeEnv) :
    (((self.loadedCall env).2.1.loadedCall env2).1 = (self.loadedCall env).1
      ∧ ((self.loadedCall env).2.1.loadedCall env2).2.2 = 0)
    ∧ (((self.loadableCall env).2.1.loadableCall env2).1 = (self.loadableCall env).1
      ∧ ((self.loadableCall env).2.1.loadableCall env2).2.2 = 0)
    ∧ (((self.startedCall env).2.1.startedCall env2).1 = (self.startedCall env).1
      ∧ ((self.startedCall env).2.1.startedCall env2).2.2 = 0)
    ∧ ((∀ s, (self.versionCall env).1 ≠ RuntimeVersion.Unknown s) →
        ((self.versionCall env).2.1.versionCall env2).1 = (self.versionCall env).1
        ∧ ((self.versionCall env).2.1.versionCall env2).2.2 = 0) := by
  refine ⟨?_, ?_, ?_, fun hw => ?_⟩
  · cases h : self.loaded <;> simp [RuntimeInfoImpl.loadedCall, h]
  · cases h : self.loadable <;> simp [RuntimeInfoImpl.loadableCall, h]
  · cases h : self.started <;> simp [RuntimeInfoImpl.startedCall, h]
  · cases hv : self.version with
    | V2 => simp [RuntimeInfoImpl.versionCall, hv]
    | V3 => simp [RuntimeInfoImpl.versionCall, hv]
    | V4 => simp [RuntimeInfoImpl.versionCall, hv]
    | Unknown s =>
      by_cases hr : (env.getVersionString self.inner).1 = 0
      · have h1 : (self.versionCall env).1
            = RuntimeVersion.fromString (env.getVersionString self.inner).2 := by
          simp [RuntimeInfoImpl.versionCall, hv, hr]
        cases hfv : RuntimeVersion.fromString (env.getVersionString self.inner).2 with
        | V2 => simp [RuntimeInfoImpl.versionCall, hv, hr, hfv]
        | V3 => simp [RuntimeInfoImpl.versionCall, hv, hr, hfv]
        | V4 => simp [RuntimeInfoImpl.versionCall, hv, hr, hfv]
        | Unknown t => exact absurd (h1.trans hfv) (hw t)
      · have h1 : (self.versionCall env).1 = RuntimeVersion.Unknown s := by
          simp [RuntimeInfoImpl.versionCall, hv, hr]
        exact absurd h1 (hw s)

/-- Witness for the amended C4 on `ri0` (resolved version `V4`, no flags):
all four accessors keep their first result under a changed environment with
no further native query. -/
theorem memoization_amended_witness :
    (((ri0.loadedCall baseEnv).2.1.loadedCall envV5).1 = (ri0.loadedCall baseEnv).1
      ∧ ((ri0.loadedCall baseEnv).2.1.loadedCall envV5).2.2 = 0)
    ∧ (((ri0.loadableCall baseEnv).2.1.loadableCall envV5).1 = (ri0.loadableCall baseEnv).1
      ∧ ((ri0.loadableCall baseEnv).2.1.loadableCall envV5).2.2 = 0)
    ∧ (((ri0.startedCall baseEnv).2.1.startedCall envV5).1 = (ri0.startedCall baseEnv).1
      ∧ ((ri0.startedCall baseEnv).2.1.startedCall envV5).2.2 = 0)
    ∧ (((ri0.versionCall baseEnv).2.1.versionCall envV5).1 = (ri0.versionCall baseEnv).1
      ∧ ((ri0.versionCall baseEnv).2.1.versionCall envV5).2.2 = 0) := by
  have h := memoization_amended ri0 baseEnv envV5
  exact ⟨h.1, h.2.1, h.2.2.1,
    h.2.2.2 (by intro s; simp [ri0, RuntimeInfoImpl.versionCall])⟩

/-- The version-to-id map produced by `allocEntries` has the same keys, in
order, as the collected entry list it was built from. -/
theorem allocEntries_keys (m : List (RuntimeVersion × RuntimeInfoImpl)) (c : Nat) :
    (allocEntries c m).1.map Prod.fst = m.map Prod.fst := by
  induction m generalizing c with
  | nil => simp [allocEntries]
  | cons p rest ih =>
    obtain ⟨v, ri⟩ := p
    simp [allocEntries, ih]

/-- Key membership through a left fold of insert-or-replace. -/
theorem lookupA_foldl_insert_isSome {κ α : Type} [DecidableEq κ]
    (l : List (κ × α)) (m0 : List (κ × α)) (k : κ) :
    (lookupA (l.foldl (fun m vr => insertA vr.1 vr.2 m) m0) k).isSome
      ↔ (lookupA m0 k).isSome ∨ k ∈ l.map Prod.fst := by
  induction l generalizing m0 with
  | nil => simp
  | cons p rest ih =>
    obtain ⟨pk, pv⟩ := p
    simp only [List.foldl_cons, ih, lookupA_insertA]
    by_cases hk : k = pk
    · simp [hk]
    · simp [hk]

/-- `runtimes()` always returns the weak view of the owned map it leaves
behind. -/
theorem runtimesCall_result_eq (self : MetaHostImpl) (env : NativeEnv) :
    (self.runtimesCall env).1 = (self.runtimesCall env).2.1.runtimes := by
  by_cases he : self.runtimes.isEmpty
  · by_cases hs : (env.enumInstalled self.inner).1 = 0
        ∧ (env.enumInstalled self.inner).2 ≠ 0
    · simp [MetaHostImpl.runtimesCall, he, hs]
    · simp [MetaHostImpl.runtimesCall, he, hs]
  · simp [MetaHostImpl.runtimesCall, he]

/-- A `runtimes()` call on a catalog whose owned map is empty always invokes
the native enumerator. -/
theorem runtimesCall_queries_of_empty (st : MetaHostImpl) (env : NativeEnv)
    (h : st.runtimes = []) : (st.runtimesCall env).2.2 = true := by
  have he : st.runtimes.isEmpty = true := by simp [h]
  by_cases hs : (env.enumInstalled st.inner).1 = 0
      ∧ (env.enumInstalled st.inner).2 ≠ 0
  · simp [MetaHostImpl.runtimesCall, he, hs]
  · simp [MetaHostImpl.runtimesCall, he, hs]

/-- Counterexample to C7 as stated: on a catalog whose enumeration collected
nothing, the second `runtimes()` call re-invokes the native enumerator
(it does not return a cached snapshot) and can return a different map when
the native side now reports an installed runtime. -/
theorem runtimes_cache_counterexample :
    (mh0.runtimesCall baseEnv).2.2 = true
    ∧ ((mh0.runtimesCall baseEnv).2.1.runtimesCall baseEnv).2.2 = true
    ∧ ((mh0.runtimesCall baseEnv).2.1.runtimesCall envOneInstalled).1
        ≠ (mh0.runtimesCall baseEnv).1 := by
  refine ⟨by decide, by decide, by decide⟩

/-- C7 amended: a `runtimes()` call on an empty owned map invokes the native
enumerator; on enumerator success the returned map's keys are exactly the
versions the `Next` loop collected; on enumerator failure the empty map is
returned with the catalog unchanged (no error surfaced — the call still
returns); a subsequent call returns the cached snapshot without
re-enumerating provided the stored map is non-empty, while an empty stored
map is re-enumerated on every call.  Mid-enumeration failures are silent and
differ by call: a non-`S_OK` return from `Next` stops collection, keeping
exactly the entries collected so far; a failed (or null-yielding) per-item
`QueryInterface` only skips that item while collection continues with the
later items; and a kept item whose version query fails is still inserted,
under `Unknown("")`. -/
theorem runtimes_enumeration_amended (self : MetaHostImpl) (env env2 : NativeEnv)
    (h : self.runtimes = []) :
    (self.runtimesCall env).2.2 = true
    ∧ (((env.enumInstalled self.inner).1 = 0
          ∧ (env.enumInstalled self.inner).2 ≠ 0) →
        ∀ v, (lookupA (self.runtimesCall env).1 v).isSome
          ↔ v ∈ (collectInstalled env env.installedItems).map Prod.fst)
    ∧ (¬((env.enumInstalled self.inner).1 = 0
          ∧ (env.enumInstalled self.inner).2 ≠ 0) →
        (self.runtimesCall env).1 = [] ∧ (self.runtimesCall env).2.1 = self)
    ∧ ((self.runtimesCall env).2.1.runtimes ≠ [] →
        (self.runtimesCall env).2.1.runtimesCall env2 =
          ((self.runtimesCall env).1, (self.runtimesCall env).2.1, false))
    ∧ ((self.runtimesCall env).2.1.runtimes = [] →
        ((self.runtimesCall env).2.1.runtimesCall env2).2.2 = true)
    ∧ (∀ (pre : List EnumStep) (step : EnumStep) (post : List EnumStep),
        (∀ x ∈ pre, x.next_hr = 0) → step.next_hr ≠ 0 →
        collectInstalled env (pre ++ step :: post) = collectInstalled env pre)
    ∧ (∀ (pre : List EnumStep) (step : EnumStep) (post : List EnumStep),
        step.next_hr = 0 → ¬(step.qi_hr = 0 ∧ step.ri_ptr ≠ 0) →
        collectInstalled env (pre ++ step :: post) =
          collectInstalled env (pre ++ post))
    ∧ (∀ (p : Nat) (rest : List EnumStep), p ≠ 0 →
        (env.getVersionString p).1 ≠ 0 →
        collectInstalled env (⟨0, 0, p⟩ :: rest) =
          (RuntimeVersion.Unknown "",
            { version := RuntimeVersion.Unknown "", inner := p,
              loaded := none, loadable := none, started := none }) ::
            collectInstalled env rest) := by
  have hempty : self.runtimes.isEmpty = true := by simp [h]
  refine ⟨runtimesCall_queries_of_empty self env h, fun hs v => ?_, fun hs => ?_,
    fun hne => ?_, fun he2 => runtimesCall_queries_of_empty _ env2 he2, ?_, ?_, ?_⟩
  · have hres : (self.runtimesCall env).1 =
        (allocEntries self.nextId ((collectInstalled env env.installedItems).foldl
          (fun m vr => insertA vr.1 vr.2 m) [])).1 := by
      simp [MetaHostImpl.runtimesCall, hempty, hs]
    rw [hres, lookupA_isSome_iff_mem_keys, allocEntries_keys]
    rw [← lookupA_isSome_iff_mem_keys, lookupA_foldl_insert_isSome]
    simp [lookupA]
  · constructor
    · simp [MetaHostImpl.runtimesCall, hempty, hs, h]
    · simp [MetaHostImpl.runtimesCall, hempty, hs]
  · have he2 : (self.runtimesCall env).2.1.runtimes.isEmpty = false := by
      cases hx : (self.runtimesCall env).2.1.runtimes
      · exact absurd hx hne
      · rfl
    have h1 := runtimesCall_result_eq self env
    rw [MetaHostImpl.runtimesCall, he2]
    simp [← h1]
  · intro pre step post
    induction pre with
    | nil =>
      intro _ hstep
      simp [collectInstalled, hstep]
    | cons a rest ih =>
      intro hpre hstep
      have ha : a.next_hr = 0 := hpre a (by simp)
      have ht := ih (fun x hx => hpre x (by simp [hx])) hstep
      simp [collectInstalled, ha, ht]
  · intro pre step post
    induction pre with
    | nil =>
      intro hstep hqi
      simp [collectInstalled, hstep, hqi]
    | cons a rest ih =>
      intro hstep hqi
      by_cases ha : a.next_hr = 0
      · simp [collectInstalled, ha, ih hstep hqi]
      · simp [collectInstalled, ha]
  · intro p rest hp hhr
    simp [collectInstalled, hp, RuntimeInfoImpl.versionCall, hhr]

/-- Witness for the amended C7: concrete enumeration success (one installed
runtime resolving to `V4`), enumerator failure, non-empty caching,
`Next`-failure truncation, skip-and-continue on a failed per-item
`QueryInterface`, and insertion under `Unknown("")` on a failed version
query. -/
theorem runtimes_enumeration_amended_witness :
    (mh0.runtimesCall envOneInstalled).2.2 = true
    ∧ ((lookupA (mh0.runtimesCall envOneInstalled).1 RuntimeVersion.V4).isSome
        ↔ RuntimeVersion.V4 ∈
          (collectInstalled envOneInstalled envOneInstalled.installedItems).map Prod.fst)
    ∧ ((mh0.runtimesCall envEnumFail).1 = [] ∧ (mh0.runtimesCall envEnumFail).2.1 = mh0)
    ∧ (mh0.runtimesCall envOneInstalled).2.1.runtimesCall baseEnv
        = ((mh0.runtimesCall envOneInstalled).1,
            (mh0.runtimesCall envOneInstalled).2.1, false)
    ∧ collectInstalled envOneInstalled
          ([⟨0, 0, 2⟩] ++ (⟨1, 0, 0⟩ : EnumStep) :: [⟨0, 0, 3⟩])
        = collectInstalled envOneInstalled [⟨0, 0, 2⟩]
    ∧ collectInstalled envOneInstalled
          ([⟨0, 0, 2⟩] ++ (⟨0, 1, 2⟩ : EnumStep) :: [⟨0, 0, 3⟩])
        = collectInstalled envOneInstalled ([⟨0, 0, 2⟩] ++ [⟨0, 0, 3⟩])
    ∧ collectInstalled envVerFail [⟨0, 0, 2⟩]
        = (RuntimeVersion.Unknown "",
            { version := RuntimeVersion.Unknown "", inner := 2,
              loaded := none, loadable := none, started := none })
          :: collectInstalled envVerFail [] := by
  have h1 := runtimes_enumeration_amended mh0 envOneInstalled baseEnv rfl
  have h2 := runtimes_enumeration_amended mh0 envEnumFail baseEnv rfl
  have h3 := runtimes_enumeration_amended mh0 envVerFail baseEnv rfl
  exact ⟨h1.1, h1.2.1 ⟨rfl, by decide⟩ RuntimeVersion.V4,
    h2.2.2.1 (by decide),
    h1.2.2.2.1 (by decide),
    h1.2.2.2.2.2.1 [⟨0, 0, 2⟩] ⟨1, 0, 0⟩ [⟨0, 0, 3⟩] (by decide) (by decide),
    h1.2.2.2.2.2.2.1 [⟨0, 0, 2⟩] ⟨0, 1, 2⟩ [⟨0, 0, 3⟩] rfl (by decide),
    h3.2.2.2.2.2.2.2 2 [] (by decide) (by decide)⟩

/-- `loaded_runtimes()` always returns the clone of the cached map it leaves
behind. -/
theorem loadedRuntimesCall_result_eq (self : MetaHostImpl) (env : NativeEnv) :
    (self.loadedRuntimesCall env).1 =
      (self.loadedRuntimesCall env).2.1.loaded_runtimes := by
  by_cases he : self.loaded_runtimes.isEmpty
  · by_cases hs : (env.enumLoaded self.inner).1 = 0
        ∧ (env.enumLoaded self.inner).2 ≠ 0
    · simp [MetaHostImpl.loadedRuntimesCall, he, hs]
    · simp [MetaHostImpl.loadedRuntimesCall, he, hs]
  · simp [MetaHostImpl.loadedRuntimesCall, he]

/-- A `loaded_runtimes()` call on a non-empty cached map returns the cache
without invoking the native enumerator. -/
theorem loadedRuntimesCall_cached_of_nonempty (st : MetaHostImpl) (env : NativeEnv)
    (h : st.loaded_runtimes.isEmpty = false) :
    st.loadedRuntimesCall env = (st.loaded_runtimes, st, false) := by
  simp [MetaHostImpl.loadedRuntimesCall, h]

/-- A `loaded_runtimes()` call on an empty cached map always invokes the
native enumerator. -/
theorem loadedRuntimesCall_queries_of_empty (st : MetaHostImpl) (env : NativeEnv)
    (h : st.loaded_runtimes = []) : (st.loadedRuntimesCall env).2.2 = true := by
  have he : st.loaded_runtimes.isEmpty = true := by simp [h]
  by_cases hs : (env.enumLoaded st.inner).1 = 0
      ∧ (env.enumLoaded st.inner).2 ≠ 0
  · simp [MetaHostImpl.loadedRuntimesCall, he, hs]
  · simp [MetaHostImpl.loadedRuntimesCall, he, hs]

/-- Counterexample to C6 as stated: when the native side enumerates a loaded
runtime (`"v5.0"`) that the installed-runtime enumeration does not report,
`loaded_runtimes()` has a key absent from `runtimes()` (the key sets are
not equal); and an empty first result is not cached — a second call invokes
the native enumerator again. -/
theorem loaded_runtimes_keyset_counterexample :
    lookupA (mh0.loadedRuntimesCall envLoadedV5).1 (RuntimeVersion.Unknown "v5.0")
        = some true
    ∧ lookupA ((mh0.loadedRuntimesCall envLoadedV5).2.1.runtimesCall envLoadedV5).1
        (RuntimeVersion.Unknown "v5.0") = none
    ∧ ((mh0.loadedRuntimesCall baseEnv).2.1.loadedRuntimesCall baseEnv).2.2 = true := by
  refine ⟨by decide, by decide, by decide⟩

/-- C6 amended: on an empty cache and a successful loaded-runtime
enumeration, the map returned by `loaded_runtimes()` marks every version
the loop enumerated as loaded `true`, and maps any other version to `false`
exactly when it is a key of `runtimes()` (absent otherwise) — its key set is
the union of the loaded-enumerated versions and `runtimes()`'s keys, not
always `runtimes()`'s key set; a non-empty result is cached (a second call
returns it without querying), while an empty result is recomputed with a
fresh native query on every call. -/
theorem loaded_runtimes_amended (self : MetaHostImpl) (env env2 : NativeEnv)
    (h : self.loaded_runtimes = [])
    (hok : (env.enumLoaded self.inner).1 = 0)
    (hp : (env.enumLoaded self.inner).2 ≠ 0) :
    (∀ v, v ∈ collectLoaded env env.loadedItems →
        lookupA (self.loadedRuntimesCall env).1 v = some true)
    ∧ (∀ v, v ∉ collectLoaded env env.loadedItems →
        lookupA (self.loadedRuntimesCall env).1 v =
          (if (lookupA (self.runtimesCall env).1 v).isSome then some false else none))
    ∧ ((self.loadedRuntimesCall env).1 ≠ [] →
        (self.loadedRuntimesCall env).2.1.loadedRuntimesCall env2 =
          ((self.loadedRuntimesCall env).1,
            (self.loadedRuntimesCall env).2.1, false))
    ∧ ((self.loadedRuntimesCall env).1 = [] →
        ((self.loadedRuntimesCall env).2.1.loadedRuntimesCall env2).2.2 = true) := by
  have hempty : self.loaded_runtimes.isEmpty = true := by simp [h]
  have hres : (self.loadedRuntimesCall env).1 =
      (self.runtimesCall env).1.foldl
        (fun m kv => if (lookupA m kv.1).isSome then m else insertA kv.1 false m)
        ((collectLoaded env env.loadedItems).foldl (fun m v => insertA v true m) []) := by
    simp [MetaHostImpl.loadedRuntimesCall, hempty, hok, hp]
  have h1 := loadedRuntimesCall_result_eq self env
  refine ⟨fun v hv => ?_, fun v hv => ?_, fun hne => ?_, fun he => ?_⟩
  · rw [hres, lookupA_foldl_addFalse, lookupA_foldl_insert_true]
    simp [hv]
  · rw [hres, lookupA_foldl_addFalse, lookupA_foldl_insert_true]
    simp [hv, lookupA]
    by_cases hm : v ∈ List.map Prod.fst (self.runtimesCall env).1
    · rw [if_pos hm, if_pos ((lookupA_isSome_iff_mem_keys _ _).mpr hm)]
    · rw [if_neg hm, if_neg (fun hh => hm ((lookupA_isSome_iff_mem_keys _ _).mp hh))]
  · have hf : (self.loadedRuntimesCall env).2.1.loaded_runtimes.isEmpty = false := by
      rw [← h1]
      cases hx : (self.loadedRuntimesCall env).1
      · exact absurd hx hne
      · rfl
    rw [loadedRuntimesCall_cached_of_nonempty _ env2 hf, h1]
  · exact loadedRuntimesCall_queries_of_empty _ env2 (by rw [← h1]; exact he)

/-- Witness for the amended C6 under `envLoadedV5`: the loaded-enumerated
`Unknown("v5.0")` maps to `true`, `V4` follows the `runtimes()` key test,
and the non-empty result is cached. -/
theorem loaded_runtimes_amended_witness :
    lookupA (mh0.loadedRuntimesCall envLoadedV5).1 (RuntimeVersion.Unknown "v5.0")
        = some true
    ∧ lookupA (mh0.loadedRuntimesCall envLoadedV5).1 RuntimeVersion.V4 =
        (if (lookupA (mh0.runtimesCall envLoadedV5).1 RuntimeVersion.V4).isSome
          then some false else none)
    ∧ (mh0.loadedRuntimesCall envLoadedV5).2.1.loadedRuntimesCall baseEnv =
        ((mh0.loadedRuntimesCall envLoadedV5).1,
          (mh0.loadedRuntimesCall envLoadedV5).2.1, false) := by
  have h := loaded_runtimes_amended mh0 envLoadedV5 baseEnv rfl rfl (by decide)
  exact ⟨h.1 _ (by decide), h.2.1 _ (by decide), h.2.2.1 (by decide)⟩
